import Mathlib

/-!
Shallow embedding of the switchbot-hub2-ble repository.

The decoder (src/SwitchBotHub2.ts: `extractMac`, `decode`) is embedded as
pure functions over byte lists; JavaScript numbers are modelled as exact
rationals, and `toFixed(1)` followed by `parseFloat` is modelled as exact
rounding to tenths, half away from zero.  The scan orchestrator
(src/Scanner.ts: `startSensorSampling`) is embedded as an explicit
event-step state machine: environment events (adapter state changes,
timer firings, discovery reports, the caller invoking the stop function)
drive a step function over the closure state of `startSensorSampling`
together with the relevant adapter state (registered listeners, scanning
flag), and callback invocations are logged in an output list.
-/

namespace SB

/-- A byte, as stored in a Node.js buffer. -/
abbrev Byte := Fin 256

/-- A Node.js buffer: a finite sequence of bytes. -/
abbrev Buf := List Byte

/-- `SwitchBotHub2Class.MANUFACTURER_ID` (SwitchBotHub2.ts line 22). -/
def MANUFACTURER_ID : String := "6909"

/-- JavaScript `padStart(2, "0")`: prepend zero digits until length 2. -/
def padStart2 (s : String) : String :=
  String.mk (List.replicate (2 - s.length) '0') ++ s

/-- JavaScript `b.toString(16).padStart(2, "0")` for a byte `b`
(SwitchBotHub2.ts line 65): lowercase hex digits, left-padded to width 2. -/
def byteHex (b : Byte) : String :=
  padStart2 (String.mk (Nat.toDigits 16 b.val))

/-- Node.js `buffer.toString("hex")`: each byte as two lowercase hex digits,
concatenated. -/
def bytesToHex : Buf → String
  | [] => ""
  | b :: rest => byteHex b ++ bytesToHex rest

/-- Round half away from zero to an integer (the tie-breaking rule of the
JavaScript `toFixed`).  Stated on the numerator sign and on `Rat.floor` so
that it evaluates by kernel reduction; see `rhafz_eq_floor` below. -/
def rhafz (q : ℚ) : ℤ :=
  if q.num < 0 then -Rat.floor (-q + 1 / 2) else Rat.floor (q + 1 / 2)

/-- `parseFloat(x.toFixed(1))`: round to one decimal place, half away from
zero, as an exact rational. -/
def roundTenths (q : ℚ) : ℚ :=
  (rhafz (q * 10) : ℚ) / 10

/-- The decoded reading (type `SwitchBotHub2Data`, SwitchBotHub2.ts lines
12-18). -/
structure SwitchBotHub2Data where
  temperatureC : ℚ
  temperatureF : ℚ
  humidityPercent : Nat
  lightLevel : Nat
  macAddress : Option String

deriving instance DecidableEq for SwitchBotHub2Data

/-- `extractMac` (SwitchBotHub2.ts lines 61-67): undefined for buffers
shorter than 8 bytes; otherwise bytes 2..7 rendered as two-digit lowercase
hex octets joined by a colon. -/
def extractMac (buf : Buf) : Option String :=
  if buf.length < 8 then none
  else some (String.intercalate ":" (((buf.drop 2).take 6).map byteHex))

/-- `decode` (SwitchBotHub2.ts lines 76-105). -/
def decode (buf : Buf) : Option SwitchBotHub2Data :=
  if buf.length < 18 ∨ bytesToHex (buf.take 2) ≠ MANUFACTURER_ID then none
  else
    let data := buf.drop 2
    let status := (data.getD 12 0).val
    let tempBytes := (data.drop 13).take 3
    if tempBytes.length < 3 then none
    else
      let t0 := (tempBytes.getD 0 0).val
      let t1 := (tempBytes.getD 1 0).val
      let t2 := (tempBytes.getD 2 0).val
      let tempSign : ℚ := if t1 &&& 0x80 ≠ 0 then 1 else -1
      let tempC : ℚ := tempSign * (((t1 &&& 0x7f : Nat) : ℚ) + ((t0 &&& 0x0f : Nat) : ℚ) / 10)
      let tempF : ℚ := tempC * 9 / 5 + 32
      some
        { temperatureC := roundTenths tempC
          temperatureF := roundTenths tempF
          humidityPercent := t2 &&& 0x7f
          lightLevel := status &&& 0x1f
          macAddress := extractMac buf }

/-- The raw (unrounded) Celsius value of a buffer, read at the original
byte offsets 15 and 16: sign from bit 7 of byte 16, integer degrees from
its low 7 bits, tenths from the low nibble of byte 15. -/
def tempCraw (buf : Buf) : ℚ :=
  (if (buf.getD 16 0).val &&& 0x80 ≠ 0 then (1 : ℚ) else -1) *
    ((((buf.getD 16 0).val &&& 0x7f : Nat) : ℚ) + (((buf.getD 15 0).val &&& 0x0f : Nat) : ℚ) / 10)

/-- First concrete test vector, hex 6909c9165c5551a600ff67ee84b98a048eab00. -/
def sample1 : Buf :=
  [0x69, 0x09, 0xc9, 0x16, 0x5c, 0x55, 0x51, 0xa6, 0x00, 0xff,
   0x67, 0xee, 0x84, 0xb9, 0x8a, 0x04, 0x8e, 0xab, 0x00]

/-- Second concrete test vector, hex 6909e4de3a66c7a600ff67ef0bb0820891ad00. -/
def sample2 : Buf :=
  [0x69, 0x09, 0xe4, 0xde, 0x3a, 0x66, 0xc7, 0xa6, 0x00, 0xff,
   0x67, 0xef, 0x0b, 0xb0, 0x82, 0x08, 0x91, 0xad, 0x00]

/-- The reading decoded from `sample1`. -/
def reading1 : SwitchBotHub2Data :=
  { temperatureC := 72 / 5, temperatureF := 579 / 10, humidityPercent := 43,
    lightLevel := 10, macAddress := some "c9:16:5c:55:51:a6" }

/-- The reading decoded from `sample2`. -/
def reading2 : SwitchBotHub2Data :=
  { temperatureC := 89 / 5, temperatureF := 64, humidityPercent := 45,
    lightLevel := 2, macAddress := some "e4:de:3a:66:c7:a6" }

/-- A lowercase hexadecimal digit. -/
def isLowerHexDigit (c : Char) : Bool :=
  ('0' ≤ c && c ≤ '9') || ('a' ≤ c && c ≤ 'f')

/-- The JavaScript startsWith test on the hex rendering of a manufacturer
data buffer (Scanner.ts line 23), modelled on the underlying character
list. -/
def hexHasHub2Id (buf : Buf) : Bool :=
  List.isPrefixOf "6909".data (bytesToHex buf).data

/-- The discovery handler `onDiscover` (Scanner.ts lines 21-34), acting on
the pair (seen devices, emitted callback arguments); the argument `p` is
the manufacturerData field of the reported peripheral, which may be
absent.  A MAC is added to the seen set before decoding is attempted, and
the callback fires only when decoding succeeds. -/
def onDiscover (st : List String × List SwitchBotHub2Data) (p : Option Buf) :
    List String × List SwitchBotHub2Data :=
  match p with
  | none => st
  | some buf =>
    if ¬ hexHasHub2Id buf then st
    else
      match extractMac buf with
      | none => st
      | some mac =>
        if mac ∈ st.1 then st
        else
          match decode buf with
          | some d => (mac :: st.1, st.2 ++ [d])
          | none => (mac :: st.1, st.2)

/-- One scan window: the seen set starts out empty (it is cleared at the
start of `sampleOnce`) and the delivered discovery events are processed in
order. -/
def windowRun (evs : List (Option Buf)) : List String × List SwitchBotHub2Data :=
  evs.foldl onDiscover ([], [])

/-- The adapter (noble) state visible to the orchestrator: whether the
state-change handler of `startSensorSampling` is registered, how many
copies of its discovery handler are registered, and whether scanning is
active. -/
structure NobleState where
  stateChangeListener : Bool
  discoverListeners : Nat
  scanning : Bool

deriving instance DecidableEq for NobleState

/-- The closure state of one `startSensorSampling` call plus the adapter
state: the seen-devices set, the log of callback invocations, whether the
periodic interval is armed, and how many window-stop timers are pending. -/
structure ScannerState where
  seen : List String
  out : List SwitchBotHub2Data
  intervalArmed : Bool
  pendingStops : Nat
  noble : NobleState

deriving instance DecidableEq for ScannerState

/-- Environment events delivered to the orchestrator. -/
inductive Ev where
  | stateChange (poweredOn : Bool)
  | intervalFire
  | timeoutFire
  | discover (p : Option Buf)
  | stop

deriving instance DecidableEq for Ev

/-- `sampleOnce` (Scanner.ts lines 36-45): clear the seen set, register a
discovery listener, start scanning, and schedule a window-stop timer. -/
def sampleOnce (s : ScannerState) : ScannerState :=
  { s with
    seen := []
    pendingStops := s.pendingStops + 1
    noble := { s.noble with
      discoverListeners := s.noble.discoverListeners + 1
      scanning := true } }

/-- One environment event processed by the orchestrator (Scanner.ts lines
14-63).  A powered-on state change runs `sampleOnce` (line 51); any other
state stops scanning (line 53).  An interval firing runs `sampleOnce`
(line 47).  A window-stop timer stops scanning and removes one discovery
listener (lines 41-44).  A discovery report runs the handler once per
registered listener (event-emitter semantics).  The stop function clears
the interval, stops scanning and removes all discovery listeners (lines
57-62) — but not the state-change listener. -/
def step (s : ScannerState) : Ev → ScannerState
  | .stateChange true =>
      if s.noble.stateChangeListener then sampleOnce s else s
  | .stateChange false =>
      if s.noble.stateChangeListener then
        { s with noble := { s.noble with scanning := false } }
      else s
  | .intervalFire => if s.intervalArmed then sampleOnce s else s
  | .timeoutFire =>
      if 0 < s.pendingStops then
        { s with
          pendingStops := s.pendingStops - 1
          noble := { s.noble with
            scanning := false
            discoverListeners := s.noble.discoverListeners - 1 } }
      else s
  | .discover p =>
      let r := (fun st => onDiscover st p)^[s.noble.discoverListeners] (s.seen, s.out)
      { s with seen := r.1, out := r.2 }
  | .stop =>
      { s with
        intervalArmed := false
        noble := { s.noble with scanning := false, discoverListeners := 0 } }

/-- The state right after `startSensorSampling` returns: the seen set is
empty, the periodic trigger is already armed (Scanner.ts line 47 runs
unconditionally), the state-change listener is registered (line 49), and
no discovery listener is registered yet. -/
def initState : ScannerState :=
  { seen := [], out := [], intervalArmed := true, pendingStops := 0,
    noble := { stateChangeListener := true, discoverListeners := 0, scanning := false } }

/-- Process a list of environment events in order. -/
def run (s : ScannerState) (evs : List Ev) : ScannerState :=
  evs.foldl step s

/-! ### Numeric bridge lemmas -/

theorem rat_floor_eq_floor (q : ℚ) : Rat.floor q = ⌊q⌋ := by
  rw [Rat.floor_def, Rat.floor_def']

theorem rhafz_eq_floor (q : ℚ) :
    rhafz q = if q < 0 then -⌊-q + 1 / 2⌋ else ⌊q + 1 / 2⌋ := by
  have hiff : q.num < 0 ↔ q < 0 := by
    rw [← not_le, ← not_le, Rat.num_nonneg]
  unfold rhafz
  rw [rat_floor_eq_floor, rat_floor_eq_floor]
  by_cases h : q < 0
  · rw [if_pos (hiff.mpr h), if_pos h]
  · rw [if_neg (fun hc => h (hiff.mp hc)), if_neg h]

theorem rhafz_intCast (k : ℤ) : rhafz (k : ℚ) = k := by
  rw [rhafz_eq_floor]
  have h2 : ⌊(1 : ℚ) / 2⌋ = 0 := by norm_num
  by_cases h : (k : ℚ) < 0
  · rw [if_pos h, show -(k : ℚ) + 1 / 2 = ((-k : ℤ) : ℚ) + 1 / 2 by push_cast; ring,
      Int.floor_int_add, h2, add_zero, neg_neg]
  · rw [if_neg h, Int.floor_int_add, h2, add_zero]

theorem roundTenths_div_ten (k : ℤ) : roundTenths ((k : ℚ) / 10) = (k : ℚ) / 10 := by
  unfold roundTenths
  rw [show ((k : ℚ) / 10) * 10 = (k : ℚ) by field_simp, rhafz_intCast]

theorem tempCraw_eq_div_ten (buf : Buf) : ∃ k : ℤ, tempCraw buf = (k : ℚ) / 10 := by
  unfold tempCraw
  by_cases h : (buf.getD 16 0).val &&& 0x80 ≠ 0
  · exact ⟨10 * ((buf.getD 16 0).val &&& 0x7f : Nat) + ((buf.getD 15 0).val &&& 0x0f : Nat),
      by rw [if_pos h]; push_cast; ring⟩
  · exact ⟨-(10 * ((buf.getD 16 0).val &&& 0x7f : Nat) + ((buf.getD 15 0).val &&& 0x0f : Nat)),
      by rw [if_neg h]; push_cast; ring⟩

theorem roundTenths_tempCraw (buf : Buf) : roundTenths (tempCraw buf) = tempCraw buf := by
  obtain ⟨k, hk⟩ := tempCraw_eq_div_ten buf
  rw [hk, roundTenths_div_ten]

/-! ### Characterization of decode on accepted buffers -/

theorem getD_stripped (buf : Buf) (i : Nat) :
    (buf.drop 2).getD i 0 = buf.getD (2 + i) 0 := by
  simp [List.getD_eq_getElem?_getD, List.getElem?_drop]

theorem getD_tempBytes (buf : Buf) (j : Nat) (hj : j < 3) :
    (((buf.drop 2).drop 13).take 3).getD j 0 = buf.getD (15 + j) 0 := by
  simp only [List.getD_eq_getElem?_getD, List.getElem?_take_of_lt hj, List.getElem?_drop]
  rw [show 2 + (13 + j) = 15 + j by omega]

theorem tempBytes_length (buf : Buf) (h18 : 18 ≤ buf.length) :
    (((buf.drop 2).drop 13).take 3).length = 3 := by
  simp only [List.length_take, List.length_drop]
  omega

theorem decode_accepted (buf : Buf) (h18 : 18 ≤ buf.length)
    (hid : bytesToHex (buf.take 2) = MANUFACTURER_ID) :
    decode buf = some
      { temperatureC := roundTenths (tempCraw buf)
        temperatureF := roundTenths (tempCraw buf * 9 / 5 + 32)
        humidityPercent := (buf.getD 17 0).val &&& 0x7f
        lightLevel := (buf.getD 14 0).val &&& 0x1f
        macAddress := extractMac buf } := by
  have hc : ¬(buf.length < 18 ∨ bytesToHex (buf.take 2) ≠ MANUFACTURER_ID) := by
    push_neg
    exact ⟨h18, hid⟩
  unfold decode
  rw [if_neg hc]
  simp only [tempBytes_length buf h18, getD_tempBytes buf 0 (by norm_num),
    getD_tempBytes buf 1 (by norm_num), getD_tempBytes buf 2 (by norm_num),
    getD_stripped buf 12, lt_self_iff_false, if_false]
  rfl

theorem decode_some_inv (buf : Buf) (r : SwitchBotHub2Data) (h : decode buf = some r) :
    18 ≤ buf.length ∧ bytesToHex (buf.take 2) = MANUFACTURER_ID := by
  by_contra hc
  have hor : buf.length < 18 ∨ bytesToHex (buf.take 2) ≠ MANUFACTURER_ID := by
    rcases Nat.lt_or_ge buf.length 18 with h' | h'
    · exact Or.inl h'
    · push_neg at hc
      exact Or.inr (hc h')
  unfold decode at h
  rw [if_pos hor] at h
  exact Option.noConfusion h

theorem decode_some_eq (buf : Buf) (r : SwitchBotHub2Data) (h : decode buf = some r) :
    r = { temperatureC := roundTenths (tempCraw buf)
          temperatureF := roundTenths (tempCraw buf * 9 / 5 + 32)
          humidityPercent := (buf.getD 17 0).val &&& 0x7f
          lightLevel := (buf.getD 14 0).val &&& 0x1f
          macAddress := extractMac buf } := by
  obtain ⟨h18, hid⟩ := decode_some_inv buf r h
  rw [decode_accepted buf h18 hid] at h
  exact (Option.some_inj.mp h).symm

/-! ### Concrete evaluations of the two test vectors -/

theorem tempCraw_sample1 : tempCraw sample1 = 144 / 10 := by
  have ha : ((sample1.getD 16 0).val &&& 0x7f) = 14 := by decide
  have hb : ((sample1.getD 15 0).val &&& 0x0f) = 4 := by decide
  have hc : ((sample1.getD 16 0).val &&& 0x80) = 128 := by decide
  unfold tempCraw
  rw [ha, hb, hc, if_pos (by decide : (128 : Nat) ≠ 0)]
  norm_num

theorem tempCraw_sample2 : tempCraw sample2 = 178 / 10 := by
  have ha : ((sample2.getD 16 0).val &&& 0x7f) = 17 := by decide
  have hb : ((sample2.getD 15 0).val &&& 0x0f) = 8 := by decide
  have hc : ((sample2.getD 16 0).val &&& 0x80) = 128 := by decide
  unfold tempCraw
  rw [ha, hb, hc, if_pos (by decide : (128 : Nat) ≠ 0)]
  norm_num

theorem decode_sample1_eq : decode sample1 = some reading1 := by
  rw [decode_accepted sample1 (by decide) (by decide)]
  have h1 : roundTenths (tempCraw sample1) = 72 / 5 := by
    rw [tempCraw_sample1, show (144 : ℚ) / 10 = ((144 : ℤ) : ℚ) / 10 by norm_num,
      roundTenths_div_ten]
    norm_num
  have h2 : roundTenths (tempCraw sample1 * 9 / 5 + 32) = 579 / 10 := by
    rw [tempCraw_sample1, show (144 : ℚ) / 10 * 9 / 5 + 32 = 2896 / 50 by norm_num]
    unfold roundTenths
    rw [rhafz_eq_floor, if_neg (by norm_num)]
    norm_num
  simp only [reading1, Option.some.injEq, SwitchBotHub2Data.mk.injEq]
  exact ⟨h1, h2, by decide, by decide, by decide⟩

theorem decode_sample2_eq : decode sample2 = some reading2 := by
  rw [decode_accepted sample2 (by decide) (by decide)]
  have h1 : roundTenths (tempCraw sample2) = 89 / 5 := by
    rw [tempCraw_sample2, show (178 : ℚ) / 10 = ((178 : ℤ) : ℚ) / 10 by norm_num,
      roundTenths_div_ten]
    norm_num
  have h2 : roundTenths (tempCraw sample2 * 9 / 5 + 32) = 64 := by
    rw [tempCraw_sample2, show (178 : ℚ) / 10 * 9 / 5 + 32 = 3202 / 50 by norm_num]
    unfold roundTenths
    rw [rhafz_eq_floor, if_neg (by norm_num)]
    norm_num
  simp only [reading2, Option.some.injEq, SwitchBotHub2Data.mk.injEq]
  exact ⟨h1, h2, by decide, by decide, by decide⟩

set_option maxRecDepth 4000 in
theorem byteHex_well_formed :
    ∀ b : Byte, (byteHex b).length = 2 ∧ (byteHex b).data.all isLowerHexDigit = true := by
  decide

/-! ### Orchestrator helper lemmas -/

theorem bytesToHex_append (a b : Buf) :
    bytesToHex (a ++ b) = bytesToHex a ++ bytesToHex b := by
  induction a with
  | nil => simp [bytesToHex]
  | cons x xs ih => simp [bytesToHex, ih, String.append_assoc]

theorem hexHasHub2Id_of_id (buf : Buf) (hid : bytesToHex (buf.take 2) = MANUFACTURER_ID) :
    hexHasHub2Id buf = true := by
  have h : bytesToHex buf = MANUFACTURER_ID ++ bytesToHex (buf.drop 2) := by
    rw [← hid, ← bytesToHex_append, List.take_append_drop]
  unfold hexHasHub2Id
  rw [h, List.isPrefixOf_iff_prefix, String.data_append]
  exact List.prefix_append _ _

theorem decode_macAddress (buf : Buf) (r : SwitchBotHub2Data) (h : decode buf = some r) :
    r.macAddress = extractMac buf := by
  rw [decode_some_eq buf r h]

theorem onDiscover_inv (st : List String × List SwitchBotHub2Data) (p : Option Buf)
    (h1 : ∀ mac, st.2.countP (fun d => d.macAddress == some mac) ≤ 1)
    (h2 : ∀ d ∈ st.2, ∀ mac, d.macAddress = some mac → mac ∈ st.1) :
    (∀ mac, (onDiscover st p).2.countP (fun d => d.macAddress == some mac) ≤ 1) ∧
    (∀ d ∈ (onDiscover st p).2, ∀ mac, d.macAddress = some mac → mac ∈ (onDiscover st p).1) := by
  match p with
  | none => exact ⟨h1, h2⟩
  | some buf =>
    simp only [onDiscover]
    by_cases hg : hexHasHub2Id buf
    case neg =>
      rw [if_pos (by simpa using hg)]
      exact ⟨h1, h2⟩
    case pos =>
      rw [if_neg (by simpa using hg)]
      rcases hm : extractMac buf with _ | mac
      · exact ⟨h1, h2⟩
      · simp only []
        by_cases hmem : mac ∈ st.1
        · rw [if_pos hmem]
          exact ⟨h1, h2⟩
        · rw [if_neg hmem]
          rcases hd : decode buf with _ | d
          · refine ⟨h1, fun d hdm mac2 hmac2 => ?_⟩
            exact List.mem_cons_of_mem mac (h2 d hdm mac2 hmac2)
          · simp only []
            have hdm : d.macAddress = some mac := by
              rw [decode_macAddress buf d hd, hm]
            constructor
            · intro mac2
              rw [List.countP_append, List.countP_cons, List.countP_nil]
              by_cases he : mac2 = mac
              · subst he
                have hz : st.2.countP (fun d => d.macAddress == some mac2) = 0 := by
                  rw [List.countP_eq_zero]
                  intro a ha hpa
                  exact hmem (h2 a ha mac2 (by simpa using hpa))
                rw [hz]
                simp [hdm]
              · have : ¬((fun d => d.macAddress == some mac2) d = true) := by
                  simp only [hdm, beq_iff_eq, Option.some_inj]
                  exact fun hh => he hh.symm
                simp only [this, if_false, Nat.zero_add, Nat.add_zero]
                exact h1 mac2
            · intro d2 hd2 mac2 hmac2
              rcases List.mem_append.mp hd2 with h | h
              · exact List.mem_cons_of_mem mac (h2 d2 h mac2 hmac2)
              · have : d2 = d := by simpa using h
                subst this
                rw [hdm] at hmac2
                have : mac2 = mac := by simpa using hmac2.symm
                subst this
                exact List.mem_cons_self mac2 st.1

theorem foldl_onDiscover_inv (evs : List (Option Buf))
    (st : List String × List SwitchBotHub2Data)
    (h1 : ∀ mac, st.2.countP (fun d => d.macAddress == some mac) ≤ 1)
    (h2 : ∀ d ∈ st.2, ∀ mac, d.macAddress = some mac → mac ∈ st.1) :
    (∀ mac, (evs.foldl onDiscover st).2.countP (fun d => d.macAddress == some mac) ≤ 1) ∧
    (∀ d ∈ (evs.foldl onDiscover st).2, ∀ mac,
      d.macAddress = some mac → mac ∈ (evs.foldl onDiscover st).1) := by
  induction evs generalizing st with
  | nil => exact ⟨h1, h2⟩
  | cons e evs ih =>
    obtain ⟨h1s, h2s⟩ := onDiscover_inv st e h1 h2
    exact ih (onDiscover st e) h1s h2s

theorem windowRun_append_new (evs : List (Option Buf)) (buf : Buf) (mac : String)
    (d : SwitchBotHub2Data) (hmac : extractMac buf = some mac)
    (hnot : mac ∉ (windowRun evs).1) (hdec : decode buf = some d) :
    (windowRun (evs ++ [some buf])).2 = (windowRun evs).2 ++ [d] := by
  obtain ⟨_, hid⟩ := decode_some_inv buf d hdec
  have hg : hexHasHub2Id buf = true := hexHasHub2Id_of_id buf hid
  unfold windowRun
  rw [List.foldl_append, List.foldl_cons, List.foldl_nil]
  show (onDiscover (windowRun evs) (some buf)).2 = _
  simp only [onDiscover]
  rw [if_neg (by simp [hg]), hmac]
  simp only []
  rw [if_neg hnot, hdec]
  rfl

theorem run_no_listener (evs : List Ev) (s : ScannerState)
    (harm : s.intervalArmed = false) (hlis : s.noble.discoverListeners = 0)
    (hne : Ev.stateChange true ∉ evs) :
    (run s evs).out = s.out ∧ (run s evs).intervalArmed = false ∧
      (run s evs).noble.discoverListeners = 0 := by
  induction evs generalizing s with
  | nil => exact ⟨rfl, harm, hlis⟩
  | cons e evs ih =>
    have hne1 : e ≠ Ev.stateChange true := fun h => hne (h ▸ List.mem_cons_self e evs)
    have hne2 : Ev.stateChange true ∉ evs := fun h => hne (List.mem_cons_of_mem e h)
    have hstep : (step s e).out = s.out ∧ (step s e).intervalArmed = false ∧
        (step s e).noble.discoverListeners = 0 := by
      cases e with
      | stateChange b =>
        cases b
        · by_cases h : s.noble.stateChangeListener = true
          · simp [step, h, harm, hlis]
          · simp only [Bool.not_eq_true] at h
            simp [step, h, harm, hlis]
        · exact absurd rfl hne1
      | intervalFire => simp [step, harm, hlis]
      | timeoutFire =>
        by_cases h : 0 < s.pendingStops
        · simp [step, h, harm, hlis]
        · simp [step, h, harm, hlis]
      | discover p => simp [step, hlis, harm]
      | stop => simp [step]
    obtain ⟨ho, ha, hl⟩ := hstep
    have hrest := ih (step s e) ha hl hne2
    exact ⟨hrest.1.trans ho, hrest.2.1, hrest.2.2⟩

/-! ### Claims about the decoder -/

/-- C1: for every buffer accepted by decode, the returned temperatureC
equals sign times magnitude rounded to one decimal place, where the sign
is +1 when bit 7 (0x80) of the byte at original offset 16 is set and -1
when it is clear, and the magnitude is (byte16 AND 0x7F) plus
(byte15 AND 0x0F)/10 — exactly `tempCraw`. -/
theorem C1_temperatureC (buf : Buf) (r : SwitchBotHub2Data) (h : decode buf = some r) :
    r.temperatureC = roundTenths (tempCraw buf) := by
  rw [decode_some_eq buf r h]

theorem C1_witness : reading1.temperatureC = roundTenths (tempCraw sample1) :=
  C1_temperatureC sample1 reading1 decode_sample1_eq

/-- C2 (amended): for every buffer accepted by decode, temperatureF equals
the unrounded Celsius value times 9/5 plus 32, rounded to one decimal
place; moreover, because the unrounded Celsius is always an exact multiple
of one tenth, computing Fahrenheit from the already-rounded Celsius gives
the identical result on every accepted buffer. -/
theorem C2_temperatureF (buf : Buf) (r : SwitchBotHub2Data) (h : decode buf = some r) :
    r.temperatureF = roundTenths (tempCraw buf * 9 / 5 + 32) ∧
    roundTenths (roundTenths (tempCraw buf) * 9 / 5 + 32) = r.temperatureF := by
  rw [decode_some_eq buf r h, roundTenths_tempCraw]
  exact ⟨rfl, rfl⟩

theorem C2_witness :
    reading1.temperatureF = roundTenths (tempCraw sample1 * 9 / 5 + 32) ∧
    roundTenths (roundTenths (tempCraw sample1) * 9 / 5 + 32) = reading1.temperatureF :=
  C2_temperatureF sample1 reading1 decode_sample1_eq

/-- C2 counterexample: the claim asserts that some input exists on which
rounding Celsius first would give a different Fahrenheit value than the
one decode returns; in fact no accepted buffer distinguishes the two
rounding orders, because the unrounded Celsius is already an exact
multiple of one tenth and is therefore fixed by rounding to one decimal
place. -/
theorem C2_counterexample :
    ¬ ∃ (buf : Buf) (r : SwitchBotHub2Data), decode buf = some r ∧
        roundTenths (roundTenths (tempCraw buf) * 9 / 5 + 32) ≠ r.temperatureF := by
  rintro ⟨buf, r, h, hne⟩
  apply hne
  rw [decode_some_eq buf r h, roundTenths_tempCraw]

/-- C3: every buffer of length at most 17, and every buffer of length at
least 18 whose first two bytes as hex differ from 6909, decodes to none;
decode is a total function in this embedding, so no exception is
possible. -/
theorem C3_reject (buf : Buf)
    (h : buf.length < 18 ∨ (18 ≤ buf.length ∧ bytesToHex (buf.take 2) ≠ MANUFACTURER_ID)) :
    decode buf = none := by
  unfold decode
  rcases h with h | ⟨_, h⟩
  · rw [if_pos (Or.inl h)]
  · rw [if_pos (Or.inr h)]

theorem C3_witness :
    (([0x69, 0x09] : Buf).length < 18 ∨
      (18 ≤ ([0x69, 0x09] : Buf).length ∧
        bytesToHex (([0x69, 0x09] : Buf).take 2) ≠ MANUFACTURER_ID)) ∧
    decode [0x69, 0x09] = none :=
  ⟨Or.inl (by decide), C3_reject [0x69, 0x09] (Or.inl (by decide))⟩

/-- C4: the two concrete 19-byte test vectors decode to readings with
temperatureC 14.4 and 17.8, humidityPercent 43 and 45, lightLevel 10 and
2, and the expected colon-separated MAC addresses. -/
theorem C4_vectors :
    (decode sample1).map (fun r => (r.temperatureC, r.humidityPercent, r.lightLevel, r.macAddress))
      = some (72 / 5, 43, 10, some "c9:16:5c:55:51:a6") ∧
    (decode sample2).map (fun r => (r.temperatureC, r.humidityPercent, r.lightLevel, r.macAddress))
      = some (89 / 5, 45, 2, some "e4:de:3a:66:c7:a6") := by
  rw [decode_sample1_eq, decode_sample2_eq]
  exact ⟨rfl, rfl⟩

/-- C5: extractMac returns none for buffers shorter than 8 bytes; for
buffers of length at least 8 it returns exactly 6 colon-separated
two-digit lowercase hex octets rendering the bytes at offsets 2 through 7
inclusive, and it is a pure function (no side effects by construction). -/
theorem C5_extractMac (buf : Buf) :
    (buf.length < 8 → extractMac buf = none) ∧
    (8 ≤ buf.length →
      extractMac buf = some (String.intercalate ":" (((buf.drop 2).take 6).map byteHex)) ∧
      (((buf.drop 2).take 6).map byteHex).length = 6 ∧
      ∀ p ∈ ((buf.drop 2).take 6).map byteHex,
        p.length = 2 ∧ p.data.all isLowerHexDigit = true) := by
  constructor
  · intro h
    unfold extractMac
    rw [if_pos h]
  · intro h
    refine ⟨?_, ?_, ?_⟩
    · unfold extractMac
      rw [if_neg (Nat.not_lt.mpr h)]
    · rw [List.length_map]
      simp only [List.length_take, List.length_drop]
      omega
    · intro p hp
      obtain ⟨b, _, rfl⟩ := List.mem_map.mp hp
      exact byteHex_well_formed b

theorem C5_witness :
    8 ≤ sample1.length ∧ extractMac sample1 = some "c9:16:5c:55:51:a6" :=
  ⟨by decide, by rw [((C5_extractMac sample1).2 (by decide)).1]; decide⟩

/-- C6: for every buffer accepted by decode, humidityPercent equals the
low 7 bits of the byte at original offset 17 (hence at most 127), and
lightLevel equals the low 5 bits of the byte at original offset 14 (hence
at most 31). -/
theorem C6_humidity_light (buf : Buf) (r : SwitchBotHub2Data) (h : decode buf = some r) :
    r.humidityPercent = (buf.getD 17 0).val &&& 0x7f ∧ r.humidityPercent ≤ 127 ∧
    r.lightLevel = (buf.getD 14 0).val &&& 0x1f ∧ r.lightLevel ≤ 31 := by
  rw [decode_some_eq buf r h]
  exact ⟨rfl, Nat.and_le_right, rfl, Nat.and_le_right⟩

theorem C6_witness :
    reading1.humidityPercent = (sample1.getD 17 0).val &&& 0x7f ∧
    reading1.humidityPercent ≤ 127 ∧
    reading1.lightLevel = (sample1.getD 14 0).val &&& 0x1f ∧ reading1.lightLevel ≤ 31 :=
  C6_humidity_light sample1 reading1 decode_sample1_eq

/-- C10: for every buffer passing the initial checks (length at least 18
and manufacturer id 6909), the tempBytes view has exactly 3 bytes, so the
defensive rejection branch for fewer than 3 bytes is unreachable and the
buffer decodes to a complete reading. -/
theorem C10_tempBytes_complete (buf : Buf) (h18 : 18 ≤ buf.length)
    (hid : bytesToHex (buf.take 2) = MANUFACTURER_ID) :
    ¬((((buf.drop 2).drop 13).take 3).length < 3) ∧ ∃ r, decode buf = some r := by
  refine ⟨?_, ⟨_, decode_accepted buf h18 hid⟩⟩
  rw [tempBytes_length buf h18]
  omega

theorem C10_witness :
    18 ≤ sample1.length ∧ bytesToHex (sample1.take 2) = MANUFACTURER_ID ∧
    (¬((((sample1.drop 2).drop 13).take 3).length < 3) ∧ ∃ r, decode sample1 = some r) :=
  ⟨by decide, by decide, C10_tempBytes_complete sample1 (by decide) (by decide)⟩

/-! ### Claims about the orchestrator -/

/-- C7: within one scan window, the callback fires at most once per MAC
(counting over the emitted readings, whose macAddress field is exactly the
de-duplication key); a later event carrying a different, not yet seen MAC
with a decodable buffer fires the callback again; and the seen set is
cleared at the start of each window by sampleOnce, so de-duplication does
not carry across windows. -/
theorem C7_window_dedup :
    (∀ evs mac, (windowRun evs).2.countP (fun d => d.macAddress == some mac) ≤ 1) ∧
    (∀ evs buf mac d, extractMac buf = some mac → mac ∉ (windowRun evs).1 →
      decode buf = some d → (windowRun (evs ++ [some buf])).2 = (windowRun evs).2 ++ [d]) ∧
    (∀ s, (sampleOnce s).seen = []) := by
  refine ⟨?_, ?_, fun s => rfl⟩
  · intro evs mac
    exact (foldl_onDiscover_inv evs ([], []) (by simp) (by simp)).1 mac
  · intro evs buf mac d hmac hnot hdec
    exact windowRun_append_new evs buf mac d hmac hnot hdec

theorem C7_witness :
    (windowRun [some sample1, some sample1]).2.countP
        (fun d => d.macAddress == some "c9:16:5c:55:51:a6") ≤ 1 ∧
    (windowRun ([some sample1, some sample1] ++ [some sample2])).2
        = (windowRun [some sample1, some sample1]).2 ++ [reading2] ∧
    (sampleOnce initState).seen = [] :=
  ⟨C7_window_dedup.1 [some sample1, some sample1] "c9:16:5c:55:51:a6",
   C7_window_dedup.2.1 [some sample1, some sample1] sample2 "e4:de:3a:66:c7:a6" reading2
     (by decide) (by decide) decode_sample2_eq,
   C7_window_dedup.2.2 initState⟩

/-- C8 (amended): calling stop cancels the periodic trigger, commands the
adapter to stop scanning and removes all discovery-listener
registrations; afterwards, as long as no powered-on state-change signal is
delivered, no later event — in particular no discovery event — causes a
callback invocation.  (The state-change listener is not removed by stop,
so a powered-on signal delivered after stop restarts a scan window, after
which discovery events trigger callbacks again; see the counterexample.) -/
theorem C8_stop (s : ScannerState) (evs : List Ev) (hne : Ev.stateChange true ∉ evs) :
    (step s Ev.stop).intervalArmed = false ∧
    (step s Ev.stop).noble.scanning = false ∧
    (step s Ev.stop).noble.discoverListeners = 0 ∧
    (run (step s Ev.stop) evs).out = s.out := by
  refine ⟨rfl, rfl, rfl, ?_⟩
  exact ((run_no_listener evs (step s Ev.stop) rfl rfl hne).1).trans rfl

theorem C8_witness :
    Ev.stateChange true ∉
      [Ev.discover (some sample1), Ev.timeoutFire, Ev.intervalFire, Ev.stateChange false] ∧
    (run (step initState Ev.stop)
      [Ev.discover (some sample1), Ev.timeoutFire, Ev.intervalFire, Ev.stateChange false]).out
      = initState.out :=
  ⟨by decide,
   (C8_stop initState
     [Ev.discover (some sample1), Ev.timeoutFire, Ev.intervalFire, Ev.stateChange false]
     (by decide)).2.2.2⟩

/-- C8 counterexample: the claim states that after stop has returned, no
discovery event delivered afterwards ever causes a callback invocation.
In the code, stop removes the discovery listeners but not the state-change
listener, so a powered-on state change delivered after stop re-registers a
discovery listener and restarts scanning; the discovery event that follows
then invokes the callback: starting from the post-stop state, the event
sequence [stateChange poweredOn, discover sample1] produces one callback
invocation. -/
theorem C8_counterexample :
    (step initState Ev.stop).out.length = 0 ∧
    (run (step initState Ev.stop)
      [Ev.stateChange true, Ev.discover (some sample1)]).out.length = 1 := by
  constructor
  · rfl
  · decide

/-- C9 (amended): under startSensorSampling the periodic trigger is armed
immediately when the function is called, before any powered-on signal;
upon a powered-on signal (with the state-change listener registered) a
scan window is performed, and every firing of the periodic trigger
performs a scan window regardless of the adapter power state. -/
theorem C9_schedule (s : ScannerState) :
    initState.intervalArmed = true ∧
    (s.noble.stateChangeListener = true → step s (Ev.stateChange true) = sampleOnce s) ∧
    (s.intervalArmed = true → step s Ev.intervalFire = sampleOnce s) ∧
    (sampleOnce s).noble.scanning = true ∧
    (sampleOnce s).noble.discoverListeners = s.noble.discoverListeners + 1 ∧
    (sampleOnce s).pendingStops = s.pendingStops + 1 := by
  refine ⟨rfl, ?_, ?_, rfl, rfl, rfl⟩
  · intro h
    simp [step, h]
  · intro h
    simp [step, h]

theorem C9_witness :
    initState.noble.stateChangeListener = true ∧ initState.intervalArmed = true ∧
    step initState (Ev.stateChange true) = sampleOnce initState ∧
    step initState Ev.intervalFire = sampleOnce initState :=
  ⟨rfl, rfl, (C9_schedule initState).2.1 rfl, (C9_schedule initState).2.2.1 rfl⟩

/-- C9 counterexample: the claim states that no scan window is started and
the periodic trigger is not armed until the adapter signals powered-on.
In the code, setInterval is called unconditionally when
startSensorSampling is called, so the trigger is armed in the initial
state, and an interval firing with no powered-on signal ever delivered
starts a scan window (scanning becomes active and a discovery listener is
registered). -/
theorem C9_counterexample :
    initState.intervalArmed = true ∧
    (run initState [Ev.intervalFire]).noble.scanning = true ∧
    (run initState [Ev.intervalFire]).noble.discoverListeners = 1 ∧
    (run initState [Ev.intervalFire]).pendingStops = 1 := by
  exact ⟨rfl, rfl, rfl, rfl⟩

end SB
